import Mathlib

/-!
Verification of the block-maintenance stage of the consensus package
(`modules/consensus/maintenance.go`).

The Go code runs inside an open bolt transaction.  We embed it shallowly:
the transaction's visible state becomes an explicit `Store` record, the
in-progress block accumulator becomes `ProcessedBlock`, and each Go
function becomes a Lean function from `Store × ProcessedBlock` to an
`Outcome` that distinguishes a normal return value, a returned error
(which in Go leaves the in-place mutations visible to the caller, so the
error carries the mutated state), and a debug `panic` (which halts the
process, so it carries no state).

Storage write failures are environmental; we make them statable with an
explicit failure oracle `failCountdown` in the store: `none` means writes
always succeed, `some k` means the k-th subsequent write (0-indexed)
fails with a store error.
-/

namespace SiaMaint

/-- Embeds `modules.DiffDirection`: the direction of a diff. -/
inductive DiffDirection where
  | apply
  | revert
deriving DecidableEq, Repr

/-- Embeds `types.SiacoinOutput`: a value plus its spend condition hash
(currency and hash are abstracted to naturals). -/
structure SiacoinOutput where
  value : Nat
  unlockHash : Nat
deriving DecidableEq, Repr

/-- Embeds `types.FileContractID`, abstracted to a natural number. -/
abbrev FileContractID := Nat

/-- Embeds `types.SiacoinOutputID`: output identities are derived
deterministically; we keep the derivation structure (which inputs the id
is computed from) instead of the hash itself, so distinct derivations
give distinct ids. -/
inductive SiacoinOutputID where
  | minerPayoutID (blockID : Nat) (index : Nat)
  | storageProofOutputID (fcid : FileContractID) (proofMissed : Bool) (index : Nat)
  | txOutputID (n : Nat)
deriving DecidableEq, Repr

/-- Embeds `types.FileContract`, restricted to the fields maintenance reads:
the proof-window end height and the missed-proof payouts. -/
structure FileContract where
  windowEnd : Nat
  missedProofOutputs : List SiacoinOutput
deriving DecidableEq, Repr

/-- Embeds `modules.SiacoinOutputDiff`. -/
structure SiacoinOutputDiff where
  direction : DiffDirection
  id : SiacoinOutputID
  siacoinOutput : SiacoinOutput
deriving DecidableEq, Repr

/-- Embeds `modules.DelayedSiacoinOutputDiff`. -/
structure DelayedSiacoinOutputDiff where
  direction : DiffDirection
  id : SiacoinOutputID
  siacoinOutput : SiacoinOutput
  maturityHeight : Nat
deriving DecidableEq, Repr

/-- Embeds `modules.FileContractDiff`. -/
structure FileContractDiff where
  direction : DiffDirection
  id : FileContractID
  fileContract : FileContract
deriving DecidableEq, Repr

/-- Embeds `types.Block`, restricted to what maintenance reads: an identity (for
deriving payout ids) and the miner payouts. -/
structure Block where
  blockID : Nat
  minerPayouts : List SiacoinOutput
deriving DecidableEq, Repr

/-- Embeds `Block.MinerPayoutID(i)`: the deterministic identity of the i-th
miner payout, derived from the block and the index. -/
def Block.minerPayoutID (b : Block) (i : Nat) : SiacoinOutputID :=
  SiacoinOutputID.minerPayoutID b.blockID i

/-- Embeds `processedBlock`, restricted to the fields maintenance touches: the
block, its height, and the three append-only diff sequences. -/
structure ProcessedBlock where
  block : Block
  height : Nat
  siacoinOutputDiffs : List SiacoinOutputDiff
  delayedSiacoinOutputDiffs : List DelayedSiacoinOutputDiff
  fileContractDiffs : List FileContractDiff
deriving DecidableEq, Repr

/-- Embeds `types.MaturityDelay`: the chain constant. -/
def MaturityDelay : Nat := 144

/-- Errors.  `storeError` stands for any underlying storage write
failure; the remaining constructors are the named errors of
maintenance.go (lines 14-19). -/
inductive CError where
  | storeError
  | errMissingFileContract
  | errOutputAlreadyMature
  | errPayoutsAlreadyPaid
  | errStorageProofTiming
deriving DecidableEq, Repr

/-- Result of a stage.  `err` carries the state because Go mutates `tx`
and `pb` in place, so on an error return the caller still sees every
mutation made before the failure; `fatal` models a debug `panic`, which
halts the process. -/
inductive Outcome (α : Type) where
  | ok (a : α)
  | err (e : CError) (a : α)
  | fatal (e : CError)
deriving DecidableEq, Repr

/-- Association-list lookup with decidable keys (bolt bucket / key get). -/
def assocFind {κ α : Type} [DecidableEq κ] (k : κ) : List (κ × α) → Option α
  | [] => none
  | p :: rest => if p.1 = k then some p.2 else assocFind k rest

/-- Remove the entry with the given key (bolt bucket delete). -/
def assocRemove {κ α : Type} [DecidableEq κ] (k : κ) : List (κ × α) → List (κ × α)
  | [] => []
  | p :: rest => if p.1 = k then rest else p :: assocRemove k rest

/-- Append an entry to the per-height bucket for `h`, creating the
bucket if absent. -/
def addToBucket {α : Type} (h : Nat) (e : α) : List (Nat × List α) → List (Nat × List α)
  | [] => [(h, [e])]
  | p :: rest => if p.1 = h then (p.1, p.2 ++ [e]) :: rest else p :: addToBucket h e rest

/-- The state visible through the open transaction: the spendable-output
set, the delayed-output ledger bucketed by maturity height, the active
file contracts, the per-height expiring-contract index, and the
write-failure oracle. -/
structure Store where
  siacoinOutputs : List (SiacoinOutputID × SiacoinOutput)
  dscoBuckets : List (Nat × List (SiacoinOutputID × SiacoinOutput))
  fileContracts : List (FileContractID × FileContract)
  fcExpirations : List (Nat × List FileContractID)
  failCountdown : Option Nat
deriving DecidableEq, Repr

/-- Consume one storage write from the failure oracle: `none` means this
write fails. -/
def useWrite (s : Store) : Option Store :=
  match s.failCountdown with
  | none => some s
  | some 0 => none
  | some (n + 1) => some { s with failCountdown := some n }

/-- Modelled from the spec: `isSiacoinOutput(tx, id)` / `isSpendableOutput`
(§6) tests membership of the spendable-output set; the function itself
lives outside maintenance.go. -/
def isSiacoinOutput (s : Store) (id : SiacoinOutputID) : Bool :=
  (assocFind id s.siacoinOutputs).isSome

/-- Modelled from the spec: `getFileContract(tx, fcid)` (§6
`getContract(tx, id) -> Contract|NotFoundError`); it lives outside
maintenance.go.  `none` stands for the not-found error, surfaced by the
caller as the missing-contract error (§4.5 step 1). -/
def getFileContract (s : Store) (fcid : FileContractID) : Option FileContract :=
  assocFind fcid s.fileContracts

/-- Modelled from the spec: `commitSiacoinOutputDiff` (outside
maintenance.go).  Committing an Apply-direction diff in the apply
direction inserts the output into the spendable set (§4.4 step 2); the
opposite combination removes it.  Either way it is one storage write,
which may fail (`none` = store error). -/
def commitSiacoinOutputDiff (s : Store) (scod : SiacoinOutputDiff) (dir : DiffDirection) :
    Option Store :=
  match useWrite s with
  | none => none
  | some s1 =>
    if scod.direction = dir then
      some { s1 with siacoinOutputs := s1.siacoinOutputs ++ [(scod.id, scod.siacoinOutput)] }
    else
      some { s1 with siacoinOutputs := assocRemove scod.id s1.siacoinOutputs }

/-- Modelled from the spec: `commitDelayedSiacoinOutputDiff` (outside
maintenance.go).  Committing an Apply-direction diff in the apply
direction inserts the entry into the delayed-output bucket for its
maturity height (§4.2 `insert`), one storage write that may fail.
Committing a Revert-direction diff in the apply direction performs no
storage mutation: per §4.4 step 3 the Revert record is "*not*
un-inserting it from the delayed ledger's storage bucket (the `drainAt`
deletion already did that); it is the audit/reorg record". -/
def commitDelayedSiacoinOutputDiff (s : Store) (dscod : DelayedSiacoinOutputDiff)
    (dir : DiffDirection) : Option Store :=
  if dscod.direction = dir then
    match useWrite s with
    | none => none
    | some s1 =>
      some { s1 with
        dscoBuckets := addToBucket dscod.maturityHeight (dscod.id, dscod.siacoinOutput)
          s1.dscoBuckets }
  else
    some s

/-- Modelled from the spec: `commitFileContractDiff` (outside
maintenance.go).  Committing a Revert-direction diff in the apply
direction removes the contract from the active set (§4.5 step 4); the
opposite combination inserts it.  One storage write that may fail. -/
def commitFileContractDiff (s : Store) (fcd : FileContractDiff) (dir : DiffDirection) :
    Option Store :=
  match useWrite s with
  | none => none
  | some s1 =>
    if fcd.direction = dir then
      some { s1 with fileContracts := s1.fileContracts ++ [(fcd.id, fcd.fileContract)] }
    else
      some { s1 with fileContracts := assocRemove fcd.id s1.fileContracts }

/-- Modelled from the spec: `deleteDSCOBucket(tx, height)` (outside
maintenance.go): the deletion half of §4.2 `drainAt` — "the index bucket
for `height` is deleted in its entirety.  If no bucket exists for
`height` ... this is a no-op success, not an error." -/
def deleteDSCOBucket (s : Store) (h : Nat) : Store :=
  { s with dscoBuckets := assocRemove h s.dscoBuckets }

/-- The pair threaded through every stage: the transaction state and the
processed-block accumulator. -/
abbrev MState := Store × ProcessedBlock

/-- Loop body of `applyMinerPayouts` (maintenance.go lines 24-38),
iterating the remaining payouts with `i` the index of the first one:
derive the id, build the delayed diff with maturity `height +
MaturityDelay`, append it to the delayed diff sequence, commit it, and
return the store error on the first commit failure. -/
def minerPayoutsLoop (blockID : Nat) (i : Nat) :
    List SiacoinOutput → MState → Outcome MState
  | [], sp => Outcome.ok sp
  | mp :: rest, (s, pb) =>
    let mpid := SiacoinOutputID.minerPayoutID blockID i
    let dscod : DelayedSiacoinOutputDiff :=
      { direction := DiffDirection.apply, id := mpid, siacoinOutput := mp,
        maturityHeight := pb.height + MaturityDelay }
    let pb1 := { pb with delayedSiacoinOutputDiffs := pb.delayedSiacoinOutputDiffs ++ [dscod] }
    match commitDelayedSiacoinOutputDiff s dscod DiffDirection.apply with
    | none => Outcome.err CError.storeError (s, pb1)
    | some s1 => minerPayoutsLoop blockID (i + 1) rest (s1, pb1)

/-- Embeds `applyMinerPayouts` (maintenance.go lines 23-40). -/
def applyMinerPayouts (sp : MState) : Outcome MState :=
  minerPayoutsLoop sp.2.block.blockID 0 sp.2.block.minerPayouts sp

/-- The closure passed to `forEachDSCO` in `applyMaturedSiacoinOutputs`
(maintenance.go lines 52-80): debug-check the output is not already
spendable (panic otherwise), append the Apply spendable diff and commit
it, then append the Revert delayed diff at maturity `pb.Height` and
commit it. -/
def maturedVisit (debug : Bool) (id : SiacoinOutputID) (sco : SiacoinOutput)
    (sp : MState) : Outcome MState :=
  match sp with
  | (s, pb) =>
    if debug && isSiacoinOutput s id then Outcome.fatal CError.errOutputAlreadyMature
    else
      let scod : SiacoinOutputDiff :=
        { direction := DiffDirection.apply, id := id, siacoinOutput := sco }
      let pb1 := { pb with siacoinOutputDiffs := pb.siacoinOutputDiffs ++ [scod] }
      match commitSiacoinOutputDiff s scod DiffDirection.apply with
      | none => Outcome.err CError.storeError (s, pb1)
      | some s1 =>
        let dscod : DelayedSiacoinOutputDiff :=
          { direction := DiffDirection.revert, id := id, siacoinOutput := sco,
            maturityHeight := pb.height }
        let pb2 := { pb1 with
          delayedSiacoinOutputDiffs := pb1.delayedSiacoinOutputDiffs ++ [dscod] }
        match commitDelayedSiacoinOutputDiff s1 dscod DiffDirection.apply with
        | none => Outcome.err CError.storeError (s1, pb2)
        | some s2 => Outcome.ok (s2, pb2)

/-- Fold a visitor over the entries of a bucket, propagating the first
non-ok outcome (bolt `ForEach` over the snapshot of entries). -/
def foldVisit (visit : SiacoinOutputID → SiacoinOutput → MState → Outcome MState) :
    List (SiacoinOutputID × SiacoinOutput) → MState → Outcome MState
  | [], sp => Outcome.ok sp
  | e :: rest, sp =>
    match visit e.1 e.2 sp with
    | Outcome.ok sp1 => foldVisit visit rest sp1
    | r => r

/-- Modelled from the spec: `forEachDSCO(tx, height, visit)` (outside
maintenance.go): the enumeration half of §4.2 `drainAt` — visit every
entry indexed at `height`, propagating the first error from `visit`; if
no bucket exists for `height` this is a no-op success. -/
def forEachDSCO (h : Nat)
    (visit : SiacoinOutputID → SiacoinOutput → MState → Outcome MState)
    (sp : MState) : Outcome MState :=
  match assocFind h sp.1.dscoBuckets with
  | none => Outcome.ok sp
  | some entries => foldVisit visit entries sp

/-- Embeds `applyMaturedSiacoinOutputs` (maintenance.go lines 45-85): skip when
the chain is not old enough (`!(pb.Height > MaturityDelay)`), otherwise
drain the bucket at `pb.Height` with `maturedVisit` and finally delete
the bucket. -/
def applyMaturedSiacoinOutputs (debug : Bool) (sp : MState) : Outcome MState :=
  if ¬ (sp.2.height > MaturityDelay) then Outcome.ok sp
  else
    match forEachDSCO sp.2.height (maturedVisit debug) sp with
    | Outcome.ok (s1, pb1) => Outcome.ok (deleteDSCOBucket s1 pb1.height, pb1)
    | r => r

/-- Loop body over a contract's missed proof outputs
(maintenance.go lines 103-124), with `i` the index of the first
remaining output: derive the storage-proof output id, debug-check it is
not already spendable (panic otherwise), append the Apply delayed diff
at maturity `pb.Height + MaturityDelay` and commit it, stopping at the
first commit failure. -/
def missedProofLoop (debug : Bool) (fcid : FileContractID) (i : Nat) :
    List SiacoinOutput → MState → Outcome MState
  | [], sp => Outcome.ok sp
  | mpo :: rest, (s, pb) =>
    let spoid := SiacoinOutputID.storageProofOutputID fcid true i
    if debug && isSiacoinOutput s spoid then Outcome.fatal CError.errPayoutsAlreadyPaid
    else
      let dscod : DelayedSiacoinOutputDiff :=
        { direction := DiffDirection.apply, id := spoid, siacoinOutput := mpo,
          maturityHeight := pb.height + MaturityDelay }
      let pb1 := { pb with delayedSiacoinOutputDiffs := pb.delayedSiacoinOutputDiffs ++ [dscod] }
      match commitDelayedSiacoinOutputDiff s dscod DiffDirection.apply with
      | none => Outcome.err CError.storeError (s, pb1)
      | some s1 => missedProofLoop debug fcid (i + 1) rest (s1, pb1)

/-- Embeds `applyTxMissedStorageProof` (maintenance.go lines 89-135): fetch the
contract (error if absent), debug-check `fc.WindowEnd == pb.Height`
(panic otherwise), pay each missed proof output as a delayed output,
then append the Revert contract diff and commit the contract's removal. -/
def applyTxMissedStorageProof (debug : Bool) (fcid : FileContractID)
    (sp : MState) : Outcome MState :=
  match sp with
  | (s, pb) =>
    match getFileContract s fcid with
    | none => Outcome.err CError.errMissingFileContract (s, pb)
    | some fc =>
      if debug && !(fc.windowEnd = pb.height : Bool) then
        Outcome.fatal CError.errStorageProofTiming
      else
        match missedProofLoop debug fcid 0 fc.missedProofOutputs (s, pb) with
        | Outcome.ok (s1, pb1) =>
          let fcd : FileContractDiff :=
            { direction := DiffDirection.revert, id := fcid, fileContract := fc }
          let pb2 := { pb1 with fileContractDiffs := pb1.fileContractDiffs ++ [fcd] }
          match commitFileContractDiff s1 fcd DiffDirection.apply with
          | none => Outcome.err CError.storeError (s1, pb2)
          | some s2 => Outcome.ok (s2, pb2)
        | r => r

/-- Loop of `applyFileContractMaintenance` over the ids in the expiring
bucket (maintenance.go lines 147-151): settle each in order, stopping at
the first non-ok outcome. -/
def expiringLoop (debug : Bool) : List FileContractID → MState → Outcome MState
  | [], sp => Outcome.ok sp
  | fcid :: rest, sp =>
    match applyTxMissedStorageProof debug fcid sp with
    | Outcome.ok sp1 => expiringLoop debug rest sp1
    | r => r

/-- Embeds `applyFileContractMaintenance` (maintenance.go lines 140-157): look
up the bucket of contracts expiring at `pb.Height`; absent bucket is a
no-op success; otherwise settle each listed contract.  The bucket is
only read — the deletion is commented out in the source (line 156). -/
def applyFileContractMaintenance (debug : Bool) (sp : MState) : Outcome MState :=
  match assocFind sp.2.height sp.1.fcExpirations with
  | none => Outcome.ok sp
  | some ids => expiringLoop debug ids sp

/-- Embeds `applyMaintenance` (maintenance.go lines 162-172): the three stages
in order, returning the first error. -/
def applyMaintenance (debug : Bool) (sp : MState) : Outcome MState :=
  match applyMinerPayouts sp with
  | Outcome.ok sp1 =>
    match applyMaturedSiacoinOutputs debug sp1 with
    | Outcome.ok sp2 => applyFileContractMaintenance debug sp2
    | r => r
  | r => r

/-- The diffs that miner-payout promotion produces for the payouts
`mps`, when `mps` sits at index `i` of the payout list of a block with
id `bid` at height `height`. -/
def minerDiffsFrom (bid height : Nat) (i : Nat) :
    List SiacoinOutput → List DelayedSiacoinOutputDiff
  | [] => []
  | mp :: rest =>
    { direction := DiffDirection.apply, id := SiacoinOutputID.minerPayoutID bid i,
      siacoinOutput := mp, maturityHeight := height + MaturityDelay }
      :: minerDiffsFrom bid height (i + 1) rest

/-- The diffs that miner-payout promotion produces for a whole block. -/
def expectedMinerDiffs (pb : ProcessedBlock) : List DelayedSiacoinOutputDiff :=
  minerDiffsFrom pb.block.blockID pb.height 0 pb.block.minerPayouts

/-- Insert each delayed diff's entry into its maturity bucket, first to
last. -/
def insertEntries (ds : List DelayedSiacoinOutputDiff)
    (bs : List (Nat × List (SiacoinOutputID × SiacoinOutput))) :
    List (Nat × List (SiacoinOutputID × SiacoinOutput)) :=
  match ds with
  | [] => bs
  | d :: rest => insertEntries rest (addToBucket d.maturityHeight (d.id, d.siacoinOutput) bs)

/-- The diffs that missed-proof settlement produces for the outputs
`mpos` of contract `fcid` at height `height`, starting at index `i`. -/
def missedDiffsFrom (fcid : FileContractID) (height : Nat) (i : Nat) :
    List SiacoinOutput → List DelayedSiacoinOutputDiff
  | [] => []
  | mpo :: rest =>
    { direction := DiffDirection.apply,
      id := SiacoinOutputID.storageProofOutputID fcid true i,
      siacoinOutput := mpo, maturityHeight := height + MaturityDelay }
      :: missedDiffsFrom fcid height (i + 1) rest

/-- A concrete output used by the witnesses. -/
def payout1 : SiacoinOutput := { value := 7, unlockHash := 1 }

/-- A concrete block with one miner payout. -/
def block1 : Block := { blockID := 42, minerPayouts := [payout1] }

/-- A fresh processed block for `b` at height `h`. -/
def pbAt (b : Block) (h : Nat) : ProcessedBlock :=
  { block := b, height := h, siacoinOutputDiffs := [],
    delayedSiacoinOutputDiffs := [], fileContractDiffs := [] }

/-- The empty store with writes always succeeding. -/
def emptyStore : Store :=
  { siacoinOutputs := [], dscoBuckets := [], fileContracts := [],
    fcExpirations := [], failCountdown := none }

/-- The store after promoting `block1`'s one payout at height 1 over
the empty store (used by the C1 witness). -/
def c1wStore : Store :=
  { emptyStore with
    dscoBuckets := [(1 + MaturityDelay, [(SiacoinOutputID.minerPayoutID 42 0, payout1)])] }

/-- The processed block after promoting `block1`'s one payout at height
1 (used by the C1 witness). -/
def c1wPB : ProcessedBlock :=
  { pbAt block1 1 with
    delayedSiacoinOutputDiffs :=
      [{ direction := DiffDirection.apply, id := SiacoinOutputID.minerPayoutID 42 0,
         siacoinOutput := payout1, maturityHeight := 1 + MaturityDelay }] }

/-- A store holding one delayed output maturing at height 145 (used by
the C2/C3 witnesses). -/
def mat1Store : Store :=
  { emptyStore with dscoBuckets := [(145, [(SiacoinOutputID.txOutputID 1, payout1)])] }

/-- The entries of `mat1Store`'s height-145 bucket. -/
def mat1Entries : List (SiacoinOutputID × SiacoinOutput) :=
  [(SiacoinOutputID.txOutputID 1, payout1)]

/-- The store after maturing `mat1Store` at height 145. -/
def mat1Store' : Store :=
  { emptyStore with siacoinOutputs := [(SiacoinOutputID.txOutputID 1, payout1)] }

/-- The processed block after maturing `mat1Store` at height 145. -/
def mat1PB' : ProcessedBlock :=
  { pbAt block1 145 with
    siacoinOutputDiffs :=
      [{ direction := DiffDirection.apply, id := SiacoinOutputID.txOutputID 1,
         siacoinOutput := payout1 }],
    delayedSiacoinOutputDiffs :=
      [{ direction := DiffDirection.revert, id := SiacoinOutputID.txOutputID 1,
         siacoinOutput := payout1, maturityHeight := 145 }] }

/-- The outcome's carried store (if any) has the same expiring-contract
index as `s`. -/
def sameExp (s : Store) : Outcome MState → Prop
  | Outcome.ok a => a.1.fcExpirations = s.fcExpirations
  | Outcome.err _ a => a.1.fcExpirations = s.fcExpirations
  | Outcome.fatal _ => True

/-- A store whose height-20 expiry index names contract 9, which is
absent from the contract set (used by the C6 witness). -/
def c6Store : Store := { emptyStore with fcExpirations := [(20, [9])] }

/-- A contract whose proof window ends at height 5 (used by the C7
witness). -/
def c7Contract : FileContract := { windowEnd := 5, missedProofOutputs := [payout1] }

/-- A store holding `c7Contract` under id 9. -/
def c7Store : Store := { emptyStore with fileContracts := [(9, c7Contract)] }

/-- A contract expiring at height 20 with one missed payout (used by
the C9 witness). -/
def c9Contract : FileContract := { windowEnd := 20, missedProofOutputs := [payout1] }

/-- A store holding `c9Contract` under id 9, indexed as expiring at
height 20. -/
def c9Store : Store :=
  { emptyStore with fileContracts := [(9, c9Contract)], fcExpirations := [(20, [9])] }

/-- The store after settling `c9Contract` at height 20. -/
def c9Store' : Store :=
  { emptyStore with
    dscoBuckets := [(164, [(SiacoinOutputID.storageProofOutputID 9 true 0, payout1)])],
    fcExpirations := [(20, [9])] }

/-- The processed block after settling `c9Contract` at height 20. -/
def c9PB' : ProcessedBlock :=
  { pbAt block1 20 with
    delayedSiacoinOutputDiffs :=
      [{ direction := DiffDirection.apply,
         id := SiacoinOutputID.storageProofOutputID 9 true 0,
         siacoinOutput := payout1, maturityHeight := 164 }],
    fileContractDiffs :=
      [{ direction := DiffDirection.revert, id := 9, fileContract := c9Contract }] }

/-! ## Basic lemmas about the store primitives -/

theorem assocRemove_of_find_none {κ α : Type} [DecidableEq κ] (k : κ)
    (l : List (κ × α)) (h : assocFind k l = none) : assocRemove k l = l := by
  induction l with
  | nil => rfl
  | cons p rest ih =>
    by_cases hp : p.1 = k
    · simp [assocFind, hp] at h
    · simp only [assocFind, hp, if_false, if_neg hp] at h ⊢
      simp [assocRemove, hp, ih h]

theorem useWrite_frame (s s1 : Store) (h : useWrite s = some s1) :
    s1.siacoinOutputs = s.siacoinOutputs ∧ s1.dscoBuckets = s.dscoBuckets ∧
    s1.fileContracts = s.fileContracts ∧ s1.fcExpirations = s.fcExpirations := by
  unfold useWrite at h
  rcases hc : s.failCountdown with _ | (_ | n)
  · rw [hc] at h
    cases h
    exact ⟨rfl, rfl, rfl, rfl⟩
  · rw [hc] at h
    cases h
  · rw [hc] at h
    cases h
    exact ⟨rfl, rfl, rfl, rfl⟩

theorem useWrite_none (s : Store) (h : s.failCountdown = none) : useWrite s = some s := by
  simp [useWrite, h]

theorem commitSiacoinOutputDiff_frame (s : Store) (scod : SiacoinOutputDiff)
    (dir : DiffDirection) (s1 : Store)
    (h : commitSiacoinOutputDiff s scod dir = some s1) :
    s1.dscoBuckets = s.dscoBuckets ∧ s1.fileContracts = s.fileContracts ∧
    s1.fcExpirations = s.fcExpirations := by
  unfold commitSiacoinOutputDiff at h
  rcases hw : useWrite s with _ | s2
  · rw [hw] at h; cases h
  · simp only [hw] at h
    obtain ⟨-, hb, hf, he⟩ := useWrite_frame s s2 hw
    by_cases hdir : scod.direction = dir
    · rw [if_pos hdir] at h
      cases h
      exact ⟨hb, hf, he⟩
    · rw [if_neg hdir] at h
      cases h
      exact ⟨hb, hf, he⟩

/-- Committing a Revert-direction delayed diff in the apply direction
touches nothing (spec §4.4 step 3: the record is audit-only). -/
theorem commitDelayed_revert_apply (s : Store) (dscod : DelayedSiacoinOutputDiff)
    (hd : dscod.direction = DiffDirection.revert) :
    commitDelayedSiacoinOutputDiff s dscod DiffDirection.apply = some s := by
  unfold commitDelayedSiacoinOutputDiff
  rw [if_neg]
  rw [hd]
  intro hcon
  cases hcon

/-- What one successful maturation visit does: the Apply spendable diff
and the Revert delayed diff (at maturity `pb.height`) are appended, and
the store's delayed buckets, contracts and expiry index are untouched. -/
theorem maturedVisit_ok_char (debug : Bool) (id : SiacoinOutputID) (sco : SiacoinOutput)
    (s : Store) (pb : ProcessedBlock) (s1 : Store) (pb1 : ProcessedBlock)
    (h : maturedVisit debug id sco (s, pb) = Outcome.ok (s1, pb1)) :
    pb1 = { pb with
      siacoinOutputDiffs := pb.siacoinOutputDiffs ++
        [{ direction := DiffDirection.apply, id := id, siacoinOutput := sco }],
      delayedSiacoinOutputDiffs := pb.delayedSiacoinOutputDiffs ++
        [{ direction := DiffDirection.revert, id := id, siacoinOutput := sco,
           maturityHeight := pb.height }] } ∧
    s1.dscoBuckets = s.dscoBuckets ∧ s1.fileContracts = s.fileContracts ∧
    s1.fcExpirations = s.fcExpirations := by
  simp only [maturedVisit] at h
  split at h
  · cases h
  · rcases hc : commitSiacoinOutputDiff s
        { direction := DiffDirection.apply, id := id, siacoinOutput := sco }
        DiffDirection.apply with _ | s2
    · rw [hc] at h; cases h
    · simp only [hc] at h
      rw [commitDelayed_revert_apply s2
        { direction := DiffDirection.revert, id := id, siacoinOutput := sco,
          maturityHeight := pb.height } rfl] at h
      cases h
      obtain ⟨hb, hf, he⟩ := commitSiacoinOutputDiff_frame _ _ _ _ hc
      exact ⟨rfl, hb, hf, he⟩

/-- What a successful drain of the entries `es` does: for each entry in
order, one Apply spendable diff and one Revert delayed diff at maturity
`pb.height`; heights, block, contract diffs and the store's buckets,
contracts and expiry index are untouched. -/
theorem foldVisit_matured_ok (debug : Bool) (es : List (SiacoinOutputID × SiacoinOutput)) :
    ∀ (s : Store) (pb : ProcessedBlock) (s1 : Store) (pb1 : ProcessedBlock),
    foldVisit (maturedVisit debug) es (s, pb) = Outcome.ok (s1, pb1) →
    pb1.siacoinOutputDiffs = pb.siacoinOutputDiffs ++
      es.map (fun e =>
        { direction := DiffDirection.apply, id := e.1, siacoinOutput := e.2 }) ∧
    pb1.delayedSiacoinOutputDiffs = pb.delayedSiacoinOutputDiffs ++
      es.map (fun e =>
        { direction := DiffDirection.revert, id := e.1, siacoinOutput := e.2,
          maturityHeight := pb.height }) ∧
    pb1.height = pb.height ∧ pb1.block = pb.block ∧
    pb1.fileContractDiffs = pb.fileContractDiffs ∧
    s1.dscoBuckets = s.dscoBuckets ∧ s1.fileContracts = s.fileContracts ∧
    s1.fcExpirations = s.fcExpirations := by
  induction es with
  | nil =>
    intro s pb s1 pb1 h
    cases h
    simp
  | cons e rest ih =>
    intro s pb s1 pb1 h
    unfold foldVisit at h
    rcases hv : maturedVisit debug e.1 e.2 (s, pb) with ⟨s2, pb2⟩ | ⟨e2, sp2⟩ | e2
    · rw [hv] at h
      obtain ⟨hpb2, hb2, hf2, he2⟩ := maturedVisit_ok_char debug e.1 e.2 s pb s2 pb2 hv
      obtain ⟨h1, h2, h3, h4, h5, h6, h7, h8⟩ := ih s2 pb2 s1 pb1 h
      subst hpb2
      refine ⟨?_, ?_, ?_, ?_, ?_, ?_, ?_, ?_⟩ <;> simp_all [List.append_assoc]
    · rw [hv] at h; cases h
    · rw [hv] at h; cases h

/-! ## C1: orchestrator ordering and short-circuit -/

/-- C1: `applyMaintenance` runs miner-payout promotion, then maturation
promotion, then contract-expiry settlement, on the same transaction and
block accumulator; a stage's error (or debug panic) is returned as-is —
later stages do not run and the state carried by the error is exactly
the failing stage's state, with no cleanup. -/
theorem c1_maintenance_stage_order (debug : Bool) (sp : MState) :
    (∀ e sp1, applyMinerPayouts sp = Outcome.err e sp1 →
      applyMaintenance debug sp = Outcome.err e sp1) ∧
    (∀ e, applyMinerPayouts sp = Outcome.fatal e →
      applyMaintenance debug sp = Outcome.fatal e) ∧
    (∀ sp1 e sp2, applyMinerPayouts sp = Outcome.ok sp1 →
      applyMaturedSiacoinOutputs debug sp1 = Outcome.err e sp2 →
      applyMaintenance debug sp = Outcome.err e sp2) ∧
    (∀ sp1 e, applyMinerPayouts sp = Outcome.ok sp1 →
      applyMaturedSiacoinOutputs debug sp1 = Outcome.fatal e →
      applyMaintenance debug sp = Outcome.fatal e) ∧
    (∀ sp1 sp2, applyMinerPayouts sp = Outcome.ok sp1 →
      applyMaturedSiacoinOutputs debug sp1 = Outcome.ok sp2 →
      applyMaintenance debug sp = applyFileContractMaintenance debug sp2) := by
  refine ⟨?_, ?_, ?_, ?_, ?_⟩ <;> intros <;> simp only [applyMaintenance, *]

/-- Witness for C1 at a concrete input: a block with one payout at
height 1 over the empty store passes the first two stages, and the
orchestrator's result is the third stage's result on the stage-two
state. -/
theorem c1_maintenance_stage_order_witness :
    applyMaintenance false (emptyStore, pbAt block1 1) =
      applyFileContractMaintenance false (c1wStore, c1wPB) :=
  (c1_maintenance_stage_order false (emptyStore, pbAt block1 1)).2.2.2.2
    (c1wStore, c1wPB) (c1wStore, c1wPB) (by decide) (by decide)

/-- Committing an Apply-direction delayed diff with the oracle off
inserts the entry into its maturity bucket. -/
theorem commitDelayed_apply_none (s : Store) (d : DelayedSiacoinOutputDiff)
    (hd : d.direction = DiffDirection.apply) (hc : s.failCountdown = none) :
    commitDelayedSiacoinOutputDiff s d DiffDirection.apply =
      some { s with
        dscoBuckets := addToBucket d.maturityHeight (d.id, d.siacoinOutput) s.dscoBuckets } := by
  unfold commitDelayedSiacoinOutputDiff
  rw [if_pos hd, useWrite_none s hc]

/-- Committing an Apply-direction delayed diff when the oracle fails
this write returns a store error. -/
theorem commitDelayed_apply_fail (s : Store) (d : DelayedSiacoinOutputDiff)
    (hd : d.direction = DiffDirection.apply) (hc : s.failCountdown = some 0) :
    commitDelayedSiacoinOutputDiff s d DiffDirection.apply = none := by
  unfold commitDelayedSiacoinOutputDiff useWrite
  rw [if_pos hd, hc]

/-- Committing an Apply-direction delayed diff with `k + 1` writes left
before failure succeeds and decrements the oracle. -/
theorem commitDelayed_apply_succ (s : Store) (d : DelayedSiacoinOutputDiff) (k : Nat)
    (hd : d.direction = DiffDirection.apply) (hc : s.failCountdown = some (k + 1)) :
    commitDelayedSiacoinOutputDiff s d DiffDirection.apply =
      some { s with
        failCountdown := some k,
        dscoBuckets := addToBucket d.maturityHeight (d.id, d.siacoinOutput) s.dscoBuckets } := by
  unfold commitDelayedSiacoinOutputDiff useWrite
  rw [if_pos hd, hc]

/-- Miner-payout promotion with the oracle off: every payout is
promoted, in order; the loop appends exactly the expected diffs and
inserts exactly their entries. -/
theorem minerPayoutsLoop_ok (bid : Nat) (mps : List SiacoinOutput) :
    ∀ (i : Nat) (s : Store) (pb : ProcessedBlock), s.failCountdown = none →
    minerPayoutsLoop bid i mps (s, pb) =
      Outcome.ok
        ({ s with dscoBuckets := insertEntries (minerDiffsFrom bid pb.height i mps) s.dscoBuckets },
         { pb with delayedSiacoinOutputDiffs :=
             pb.delayedSiacoinOutputDiffs ++ minerDiffsFrom bid pb.height i mps }) := by
  induction mps with
  | nil =>
    intro i s pb hc
    simp [minerPayoutsLoop, minerDiffsFrom, insertEntries]
  | cons mp rest ih =>
    intro i s pb hc
    have hcommit := commitDelayed_apply_none s
      { direction := DiffDirection.apply, id := SiacoinOutputID.minerPayoutID bid i,
        siacoinOutput := mp, maturityHeight := pb.height + MaturityDelay } rfl hc
    simp only [minerPayoutsLoop, hcommit]
    have hih := ih (i + 1)
      ({ s with dscoBuckets := addToBucket (pb.height + MaturityDelay) (SiacoinOutputID.minerPayoutID bid i, mp) s.dscoBuckets })
      ({ pb with delayedSiacoinOutputDiffs := pb.delayedSiacoinOutputDiffs ++ [{ direction := DiffDirection.apply, id := SiacoinOutputID.minerPayoutID bid i, siacoinOutput := mp, maturityHeight := pb.height + MaturityDelay }] })
      hc
    rw [hih]
    simp [minerDiffsFrom, insertEntries, List.append_assoc]

/-- Miner-payout promotion with the oracle set to fail the `k`-th write
(`k` within the payout list): the loop returns the store error and the
accumulator holds exactly the first `k + 1` expected diffs — the `k`
committed ones plus the diff of the failed insertion, which was appended
before the commit was attempted; the remaining payouts are skipped. -/
theorem minerPayoutsLoop_err (bid : Nat) (mps : List SiacoinOutput) :
    ∀ (i : Nat) (s : Store) (pb : ProcessedBlock) (k : Nat),
    s.failCountdown = some k → k < mps.length →
    ∃ s', minerPayoutsLoop bid i mps (s, pb) =
      Outcome.err CError.storeError
        (s', { pb with delayedSiacoinOutputDiffs :=
            pb.delayedSiacoinOutputDiffs ++ (minerDiffsFrom bid pb.height i mps).take (k + 1) }) := by
  induction mps with
  | nil =>
    intro i s pb k hc hk
    exact absurd hk (Nat.not_lt_zero k)
  | cons mp rest ih =>
    intro i s pb k hc hk
    cases k with
    | zero =>
      have hcommit := commitDelayed_apply_fail s
        { direction := DiffDirection.apply, id := SiacoinOutputID.minerPayoutID bid i,
          siacoinOutput := mp, maturityHeight := pb.height + MaturityDelay } rfl hc
      refine ⟨s, ?_⟩
      simp only [minerPayoutsLoop, hcommit]
      simp [minerDiffsFrom]
    | succ k =>
      have hcommit := commitDelayed_apply_succ s
        { direction := DiffDirection.apply, id := SiacoinOutputID.minerPayoutID bid i,
          siacoinOutput := mp, maturityHeight := pb.height + MaturityDelay } k rfl hc
      obtain ⟨s', hs'⟩ := ih (i + 1)
        { s with
          failCountdown := some k,
          dscoBuckets := addToBucket (pb.height + MaturityDelay)
            (SiacoinOutputID.minerPayoutID bid i, mp) s.dscoBuckets }
        { pb with delayedSiacoinOutputDiffs := pb.delayedSiacoinOutputDiffs ++
            [{ direction := DiffDirection.apply, id := SiacoinOutputID.minerPayoutID bid i,
               siacoinOutput := mp, maturityHeight := pb.height + MaturityDelay }] }
        k rfl (Nat.lt_of_succ_lt_succ hk)
      refine ⟨s', ?_⟩
      simp only [minerPayoutsLoop, hcommit]
      rw [hs']
      simp [minerDiffsFrom, List.append_assoc, List.take_succ_cons]

/-! ## C4: miner-payout promotion -/

/-- C4: miner-payout promotion walks the payout list in order; for each
payout it derives the id from the block and the index, builds the
delayed diff at maturity `height + MaturityDelay`, appends the Apply
diff to the delayed diff sequence and inserts the entry into the
delayed-output ledger (`expectedMinerDiffs`/`insertEntries` spell this
out payout by payout); when the `k`-th insertion fails it returns the
store error having appended exactly the first `k + 1` diffs, skipping
every remaining payout. -/
theorem c4_miner_payout_promotion (s : Store) (pb : ProcessedBlock) :
    (s.failCountdown = none →
      applyMinerPayouts (s, pb) =
        Outcome.ok
          ({ s with dscoBuckets := insertEntries (expectedMinerDiffs pb) s.dscoBuckets },
           { pb with delayedSiacoinOutputDiffs :=
               pb.delayedSiacoinOutputDiffs ++ expectedMinerDiffs pb })) ∧
    (∀ k, s.failCountdown = some k → k < pb.block.minerPayouts.length →
      ∃ s', applyMinerPayouts (s, pb) =
        Outcome.err CError.storeError
          (s', { pb with delayedSiacoinOutputDiffs :=
              pb.delayedSiacoinOutputDiffs ++ (expectedMinerDiffs pb).take (k + 1) })) := by
  constructor
  · intro hc
    exact minerPayoutsLoop_ok pb.block.blockID pb.block.minerPayouts 0 s pb hc
  · intro k hc hk
    exact minerPayoutsLoop_err pb.block.blockID pb.block.minerPayouts 0 s pb k hc hk

/-- Witness for C4: over the empty store the single payout of `block1`
is promoted; with the oracle failing the first write, the stage errors
with exactly that payout's diff appended. -/
theorem c4_miner_payout_promotion_witness :
    (applyMinerPayouts (emptyStore, pbAt block1 1) =
      Outcome.ok
        ({ emptyStore with
            dscoBuckets := insertEntries (expectedMinerDiffs (pbAt block1 1))
              emptyStore.dscoBuckets },
         { pbAt block1 1 with
            delayedSiacoinOutputDiffs :=
              (pbAt block1 1).delayedSiacoinOutputDiffs ++ expectedMinerDiffs (pbAt block1 1) })) ∧
    (∃ s', applyMinerPayouts ({ emptyStore with failCountdown := some 0 }, pbAt block1 1) =
      Outcome.err CError.storeError
        (s', { pbAt block1 1 with
            delayedSiacoinOutputDiffs :=
              (pbAt block1 1).delayedSiacoinOutputDiffs ++
                (expectedMinerDiffs (pbAt block1 1)).take 1 })) :=
  ⟨(c4_miner_payout_promotion emptyStore (pbAt block1 1)).1 rfl,
   (c4_miner_payout_promotion { emptyStore with failCountdown := some 0 }
     (pbAt block1 1)).2 0 rfl (by decide)⟩

/-! ## C2 and C3: what a drained entry records, and what storage it touches -/

/-- C2: past `MaturityDelay`, for each entry drained from the bucket at
the current height — in bucket order — a successful maturation appends
exactly one Apply diff with the entry's identity and value to the
spendable-output diff sequence and exactly one Revert diff for the same
entry, with maturity height equal to the current block height, to the
delayed-output diff sequence (the Apply diff is appended by the step
before the Revert diff, see `maturedVisit`). -/
theorem c2_maturation_diffs (debug : Bool) (s : Store) (pb : ProcessedBlock)
    (es : List (SiacoinOutputID × SiacoinOutput)) (s' : Store) (pb' : ProcessedBlock)
    (hh : MaturityDelay < pb.height)
    (hb : assocFind pb.height s.dscoBuckets = some es)
    (h : applyMaturedSiacoinOutputs debug (s, pb) = Outcome.ok (s', pb')) :
    pb'.siacoinOutputDiffs = pb.siacoinOutputDiffs ++
      es.map (fun e =>
        { direction := DiffDirection.apply, id := e.1, siacoinOutput := e.2 }) ∧
    pb'.delayedSiacoinOutputDiffs = pb.delayedSiacoinOutputDiffs ++
      es.map (fun e =>
        { direction := DiffDirection.revert, id := e.1, siacoinOutput := e.2,
          maturityHeight := pb.height }) := by
  unfold applyMaturedSiacoinOutputs at h
  rw [if_neg (by simpa using hh)] at h
  unfold forEachDSCO at h
  simp only [hb] at h
  rcases hf : foldVisit (maturedVisit debug) es (s, pb) with ⟨s2, pb2⟩ | ⟨e2, sp2⟩ | e2
  · rw [hf] at h
    cases h
    obtain ⟨h1, h2, -⟩ := foldVisit_matured_ok debug es s pb _ _ hf
    exact ⟨h1, h2⟩
  · rw [hf] at h; cases h
  · rw [hf] at h; cases h

/-- Witness for C2: draining one entry at height 145 over `mat1Store`
records one Apply spendable diff and one Revert delayed diff at
maturity 145. -/
theorem c2_maturation_diffs_witness :
    mat1PB'.siacoinOutputDiffs = (pbAt block1 145).siacoinOutputDiffs ++
      mat1Entries.map (fun e =>
        { direction := DiffDirection.apply, id := e.1, siacoinOutput := e.2 }) ∧
    mat1PB'.delayedSiacoinOutputDiffs = (pbAt block1 145).delayedSiacoinOutputDiffs ++
      mat1Entries.map (fun e =>
        { direction := DiffDirection.revert, id := e.1, siacoinOutput := e.2,
          maturityHeight := (pbAt block1 145).height }) :=
  c2_maturation_diffs true mat1Store (pbAt block1 145) mat1Entries mat1Store' mat1PB'
    (by decide) (by decide) (by decide)

/-- C3: the drain's visits never touch the delayed-output buckets — in
particular, recording (and committing) the Revert delayed diff removes
nothing from storage — and on success the store's buckets differ from
the original only by the drain's deletion of the whole bucket at the
current height. -/
theorem c3_revert_diff_is_audit_only (debug : Bool) (s : Store) (pb : ProcessedBlock) :
    (∀ es s1 pb1, foldVisit (maturedVisit debug) es (s, pb) = Outcome.ok (s1, pb1) →
      s1.dscoBuckets = s.dscoBuckets) ∧
    (∀ s' pb', MaturityDelay < pb.height →
      applyMaturedSiacoinOutputs debug (s, pb) = Outcome.ok (s', pb') →
      s'.dscoBuckets = assocRemove pb.height s.dscoBuckets) := by
  constructor
  · intro es s1 pb1 h
    exact (foldVisit_matured_ok debug es s pb s1 pb1 h).2.2.2.2.2.1
  · intro s' pb' hh h
    unfold applyMaturedSiacoinOutputs at h
    rw [if_neg (by simpa using hh)] at h
    unfold forEachDSCO at h
    rcases hbk : assocFind pb.height s.dscoBuckets with _ | es
    · simp only [hbk] at h
      cases h
      rfl
    · simp only [hbk] at h
      rcases hf : foldVisit (maturedVisit debug) es (s, pb) with ⟨s2, pb2⟩ | ⟨e2, sp2⟩ | e2
      · rw [hf] at h
        cases h
        obtain ⟨-, -, h3, -, -, h6, -⟩ := foldVisit_matured_ok debug es s pb _ _ hf
        simp [deleteDSCOBucket, h3, h6]
      · rw [hf] at h; cases h
      · rw [hf] at h; cases h

/-- Witness for C3: at the concrete drain of `mat1Store` at height 145,
the resulting buckets are the original minus the height-145 bucket. -/
theorem c3_revert_diff_is_audit_only_witness :
    mat1Store'.dscoBuckets = assocRemove (pbAt block1 145).height mat1Store.dscoBuckets :=
  (c3_revert_diff_is_audit_only true mat1Store (pbAt block1 145)).2 mat1Store' mat1PB'
    (by decide) (by decide)

/-! ## C5: no premature maturation -/

/-- C5: when the block's height is at most `MaturityDelay`, maturation
promotion returns success immediately: the store and the processed
block are returned untouched, so no diff is appended and nothing is
drained. -/
theorem c5_no_premature_maturation (debug : Bool) (s : Store) (pb : ProcessedBlock)
    (h : pb.height ≤ MaturityDelay) :
    applyMaturedSiacoinOutputs debug (s, pb) = Outcome.ok (s, pb) := by
  unfold applyMaturedSiacoinOutputs
  rw [if_pos]
  exact Nat.not_lt.mpr h

/-- Witness for C5: at height `MaturityDelay` over a store that does
have a bucket at that height, maturation still does nothing. -/
theorem c5_no_premature_maturation_witness :
    applyMaturedSiacoinOutputs true
      ({ emptyStore with
          dscoBuckets := [(MaturityDelay, [(SiacoinOutputID.txOutputID 3, payout1)])] },
        pbAt block1 MaturityDelay) =
      Outcome.ok
        ({ emptyStore with
            dscoBuckets := [(MaturityDelay, [(SiacoinOutputID.txOutputID 3, payout1)])] },
          pbAt block1 MaturityDelay) :=
  c5_no_premature_maturation true _ _ (Nat.le_refl _)

/-! ## C8: absent buckets are successful no-ops -/

/-- C8: at a height whose delayed-output bucket and expiring-contract
bucket are both absent, maturation promotion and contract-expiry
settlement both return success with the store and the processed block
unchanged — no error and no diff appended. -/
theorem c8_idempotent_absence (debug : Bool) (s : Store) (pb : ProcessedBlock)
    (h1 : assocFind pb.height s.dscoBuckets = none)
    (h2 : assocFind pb.height s.fcExpirations = none) :
    applyMaturedSiacoinOutputs debug (s, pb) = Outcome.ok (s, pb) ∧
    applyFileContractMaintenance debug (s, pb) = Outcome.ok (s, pb) := by
  constructor
  · unfold applyMaturedSiacoinOutputs
    by_cases hh : MaturityDelay < pb.height
    · rw [if_neg (by simpa using hh)]
      unfold forEachDSCO
      simp only [h1]
      simp [deleteDSCOBucket, assocRemove_of_find_none _ _ h1]
    · rw [if_pos (by simpa using hh)]
  · unfold applyFileContractMaintenance
    simp only [h2]

/-- Witness for C8: height 200 over a store whose buckets are indexed
only at other heights. -/
theorem c8_idempotent_absence_witness :
    applyMaturedSiacoinOutputs true
      ({ emptyStore with
          dscoBuckets := [(150, [(SiacoinOutputID.txOutputID 3, payout1)])],
          fcExpirations := [(150, [5])] },
        pbAt block1 200) =
      Outcome.ok
        ({ emptyStore with
            dscoBuckets := [(150, [(SiacoinOutputID.txOutputID 3, payout1)])],
            fcExpirations := [(150, [5])] },
          pbAt block1 200) ∧
    applyFileContractMaintenance true
      ({ emptyStore with
          dscoBuckets := [(150, [(SiacoinOutputID.txOutputID 3, payout1)])],
          fcExpirations := [(150, [5])] },
        pbAt block1 200) =
      Outcome.ok
        ({ emptyStore with
            dscoBuckets := [(150, [(SiacoinOutputID.txOutputID 3, payout1)])],
            fcExpirations := [(150, [5])] },
          pbAt block1 200) :=
  c8_idempotent_absence true _ _ (by decide) (by decide)

/-! ## C6 and C7: contract-expiry settlement errors and panics -/

/-- Settling a list split `l1 ++ l2` first runs `l1`; `l2` runs only if
`l1` succeeded. -/
theorem expiringLoop_append (debug : Bool) (l1 l2 : List FileContractID) :
    ∀ sp, expiringLoop debug (l1 ++ l2) sp =
      match expiringLoop debug l1 sp with
      | Outcome.ok sp1 => expiringLoop debug l2 sp1
      | Outcome.err e sp1 => Outcome.err e sp1
      | Outcome.fatal e => Outcome.fatal e := by
  induction l1 with
  | nil =>
    intro sp
    simp [expiringLoop]
  | cons x rest ih =>
    intro sp
    simp only [List.cons_append, expiringLoop]
    cases h : applyTxMissedStorageProof debug x sp with
    | ok sp1 => exact ih sp1
    | err e sp1 => rfl
    | fatal e => rfl

/-- A contract that cannot be fetched makes the settlement of its id
return the missing-contract error with the state untouched. -/
theorem applyTx_missing (debug : Bool) (fcid : FileContractID) (s : Store)
    (pb : ProcessedBlock) (h : getFileContract s fcid = none) :
    applyTxMissedStorageProof debug fcid (s, pb) =
      Outcome.err CError.errMissingFileContract (s, pb) := by
  simp only [applyTxMissedStorageProof, h]

/-- C6: if the expiry index at the current height lists a contract id
that cannot be fetched (after the ids before it settled fine),
contract-expiry settlement surfaces the missing-contract error as the
stage's result — the contract is not silently skipped, the ids after it
are never processed, and the state returned is exactly the state at the
failed fetch. -/
theorem c6_missing_contract_aborts (debug : Bool) (s s1 : Store)
    (pb pb1 : ProcessedBlock) (fcid : FileContractID) (ids1 rest : List FileContractID)
    (hb : assocFind pb.height s.fcExpirations = some (ids1 ++ fcid :: rest))
    (hpre : expiringLoop debug ids1 (s, pb) = Outcome.ok (s1, pb1))
    (hmiss : getFileContract s1 fcid = none) :
    applyFileContractMaintenance debug (s, pb) =
      Outcome.err CError.errMissingFileContract (s1, pb1) := by
  unfold applyFileContractMaintenance
  simp only [hb]
  rw [expiringLoop_append debug ids1 (fcid :: rest) (s, pb)]
  simp only [hpre, expiringLoop]
  simp only [applyTx_missing debug fcid s1 pb1 hmiss]

/-- Witness for C6: contract 9 is indexed as expiring at height 20 but
absent from `c6Store`'s contract set; settlement errors with the state
untouched. -/
theorem c6_missing_contract_aborts_witness :
    applyFileContractMaintenance true (c6Store, pbAt block1 20) =
      Outcome.err CError.errMissingFileContract (c6Store, pbAt block1 20) :=
  c6_missing_contract_aborts true c6Store c6Store (pbAt block1 20) (pbAt block1 20)
    9 [] [] (by decide) (by decide) (by decide)

/-- The missed-proof payout loop can fail or panic, but never with the
window-timing error: that error has a single site, before the loop. -/
theorem missedProofLoop_no_timing (debug : Bool) (fcid : FileContractID)
    (mpos : List SiacoinOutput) :
    ∀ (i : Nat) (sp : MState),
    missedProofLoop debug fcid i mpos sp ≠ Outcome.fatal CError.errStorageProofTiming := by
  induction mpos with
  | nil =>
    intro i sp h
    simp [missedProofLoop] at h
  | cons mpo rest ih =>
    intro i sp h
    obtain ⟨s, pb⟩ := sp
    simp only [missedProofLoop] at h
    split at h
    · simp at h
    · split at h
      · cases h
      · exact ih (i + 1) _ h

/-- C7: with verification enabled, settling a fetched contract whose
window end is not the current height panics with the timing error —
the process halts, no recoverable error is returned; and whenever the
fetched contract's window end does equal the current height, no
execution of the settlement can produce that panic. -/
theorem c7_window_end_fatal (s : Store) (pb : ProcessedBlock) (fcid : FileContractID)
    (fc : FileContract) (hfc : getFileContract s fcid = some fc) :
    (fc.windowEnd ≠ pb.height →
      applyTxMissedStorageProof true fcid (s, pb) =
        Outcome.fatal CError.errStorageProofTiming) ∧
    (∀ debug : Bool, fc.windowEnd = pb.height →
      applyTxMissedStorageProof debug fcid (s, pb) ≠
        Outcome.fatal CError.errStorageProofTiming) := by
  constructor
  · intro hne
    simp only [applyTxMissedStorageProof, hfc]
    simp [hne]
  · intro debug heq h
    simp only [applyTxMissedStorageProof, hfc] at h
    simp only [heq] at h
    simp only [decide_True, Bool.not_true, Bool.and_false, Bool.false_eq_true,
      if_false] at h
    rcases hl : missedProofLoop debug fcid 0 fc.missedProofOutputs (s, pb) with
      ⟨s1, pb1⟩ | ⟨e1, sp1⟩ | e1
    · simp only [hl] at h
      rcases hcf : commitFileContractDiff s1
          { direction := DiffDirection.revert, id := fcid, fileContract := fc }
          DiffDirection.apply with _ | s2
      · simp only [hcf] at h
        cases h
      · simp only [hcf] at h
        cases h
    · simp only [hl] at h
      cases h
    · simp only [hl] at h
      injection h with h
      subst h
      exact missedProofLoop_no_timing debug fcid fc.missedProofOutputs 0 (s, pb) hl

/-- Witness for C7: `c7Contract` ends its window at height 5; settling
it at height 3 in a verification-enabled build panics with the timing
error. -/
theorem c7_window_end_fatal_witness :
    applyTxMissedStorageProof true 9 (c7Store, pbAt block1 3) =
      Outcome.fatal CError.errStorageProofTiming :=
  (c7_window_end_fatal c7Store (pbAt block1 3) 9 c7Contract (by decide)).1 (by decide)

/-! ## C9: the expiry index is read, never deleted -/

theorem commitDelayed_frame (s : Store) (d : DelayedSiacoinOutputDiff)
    (dir : DiffDirection) (s1 : Store)
    (h : commitDelayedSiacoinOutputDiff s d dir = some s1) :
    s1.siacoinOutputs = s.siacoinOutputs ∧ s1.fileContracts = s.fileContracts ∧
    s1.fcExpirations = s.fcExpirations := by
  unfold commitDelayedSiacoinOutputDiff at h
  by_cases hd : d.direction = dir
  · rw [if_pos hd] at h
    rcases hw : useWrite s with _ | s2
    · rw [hw] at h; cases h
    · simp only [hw] at h
      cases h
      obtain ⟨ho, -, hf, he⟩ := useWrite_frame s s2 hw
      exact ⟨ho, hf, he⟩
  · rw [if_neg hd] at h
    cases h
    exact ⟨rfl, rfl, rfl⟩

theorem commitFileContractDiff_frame (s : Store) (fcd : FileContractDiff)
    (dir : DiffDirection) (s1 : Store)
    (h : commitFileContractDiff s fcd dir = some s1) :
    s1.siacoinOutputs = s.siacoinOutputs ∧ s1.dscoBuckets = s.dscoBuckets ∧
    s1.fcExpirations = s.fcExpirations := by
  unfold commitFileContractDiff at h
  rcases hw : useWrite s with _ | s2
  · rw [hw] at h; cases h
  · simp only [hw] at h
    obtain ⟨ho, hb, -, he⟩ := useWrite_frame s s2 hw
    by_cases hd : fcd.direction = dir
    · rw [if_pos hd] at h
      cases h
      exact ⟨ho, hb, he⟩
    · rw [if_neg hd] at h
      cases h
      exact ⟨ho, hb, he⟩

/-- Composition: `sameExp` composes through an intermediate store. -/
theorem sameExp_mono (s s2 : Store) (r : Outcome MState) (h : sameExp s2 r)
    (he : s2.fcExpirations = s.fcExpirations) : sameExp s r := by
  cases r with
  | ok a => exact Eq.trans h he
  | err e a => exact Eq.trans h he
  | fatal e => trivial

theorem missedProofLoop_exp (debug : Bool) (fcid : FileContractID)
    (mpos : List SiacoinOutput) :
    ∀ (i : Nat) (s : Store) (pb : ProcessedBlock),
    sameExp s (missedProofLoop debug fcid i mpos (s, pb)) := by
  induction mpos with
  | nil =>
    intro i s pb
    simp [missedProofLoop, sameExp]
  | cons mpo rest ih =>
    intro i s pb
    simp only [missedProofLoop]
    split
    · trivial
    · rcases hc : commitDelayedSiacoinOutputDiff s
          { direction := DiffDirection.apply,
            id := SiacoinOutputID.storageProofOutputID fcid true i,
            siacoinOutput := mpo, maturityHeight := pb.height + MaturityDelay }
          DiffDirection.apply with _ | s2
      · exact rfl
      · exact sameExp_mono s s2 _ (ih (i + 1) s2 _)
          (commitDelayed_frame _ _ _ _ hc).2.2

theorem applyTx_exp (debug : Bool) (fcid : FileContractID) (s : Store)
    (pb : ProcessedBlock) :
    sameExp s (applyTxMissedStorageProof debug fcid (s, pb)) := by
  rcases hfc : getFileContract s fcid with _ | fc
  · rw [applyTx_missing debug fcid s pb hfc]
    exact rfl
  · by_cases hdbg : (debug && !decide (fc.windowEnd = pb.height)) = true
    · simp only [applyTxMissedStorageProof, hfc]
      rw [if_pos hdbg]
      trivial
    · have h1 := missedProofLoop_exp debug fcid fc.missedProofOutputs 0 s pb
      rcases hl : missedProofLoop debug fcid 0 fc.missedProofOutputs (s, pb) with
        ⟨s1, pb1⟩ | ⟨e1, sp1⟩ | e1 <;> rw [hl] at h1
      · rcases hcf : commitFileContractDiff s1
            { direction := DiffDirection.revert, id := fcid, fileContract := fc }
            DiffDirection.apply with _ | s2
        · simp only [applyTxMissedStorageProof, hfc, hl, hcf]
          rw [if_neg hdbg]
          exact h1
        · simp only [applyTxMissedStorageProof, hfc, hl, hcf]
          rw [if_neg hdbg]
          exact ((commitFileContractDiff_frame _ _ _ _ hcf).2.2).trans h1
      · simp only [applyTxMissedStorageProof, hfc, hl]
        rw [if_neg hdbg]
        exact h1
      · simp only [applyTxMissedStorageProof, hfc, hl]
        rw [if_neg hdbg]
        trivial

theorem expiringLoop_exp (debug : Bool) (ids : List FileContractID) :
    ∀ (s : Store) (pb : ProcessedBlock),
    sameExp s (expiringLoop debug ids (s, pb)) := by
  induction ids with
  | nil =>
    intro s pb
    exact rfl
  | cons fcid rest ih =>
    intro s pb
    have h1 := applyTx_exp debug fcid s pb
    rcases ht : applyTxMissedStorageProof debug fcid (s, pb) with
      ⟨s1, pb1⟩ | ⟨e1, sp1⟩ | e1 <;> rw [ht] at h1 <;> simp only [expiringLoop, ht]
    · exact sameExp_mono s s1 _ (ih s1 pb1) h1
    · exact h1
    · trivial

/-- C9: contract-expiry settlement reads the per-height expiry index
but never deletes it — for any completed outcome (success or returned
error) the store's expiring-contract index is unchanged, so the entry
for the current height is still there. -/
theorem c9_expiry_index_not_deleted (debug : Bool) (s : Store) (pb : ProcessedBlock) :
    (∀ s' pb', applyFileContractMaintenance debug (s, pb) = Outcome.ok (s', pb') →
      s'.fcExpirations = s.fcExpirations) ∧
    (∀ e s' pb', applyFileContractMaintenance debug (s, pb) = Outcome.err e (s', pb') →
      s'.fcExpirations = s.fcExpirations) := by
  have hexp : sameExp s (applyFileContractMaintenance debug (s, pb)) := by
    simp only [applyFileContractMaintenance]
    rcases hb : assocFind pb.height s.fcExpirations with _ | ids
    · exact rfl
    · exact expiringLoop_exp debug ids s pb
  constructor
  · intro s' pb' h
    rw [h] at hexp
    exact hexp
  · intro e s' pb' h
    rw [h] at hexp
    exact hexp

/-- Witness for C9: settling `c9Store`'s contract 9 at height 20
succeeds and leaves the height-20 expiry index entry in place. -/
theorem c9_expiry_index_not_deleted_witness :
    c9Store'.fcExpirations = c9Store.fcExpirations :=
  (c9_expiry_index_not_deleted true c9Store (pbAt block1 20)).1 c9Store' c9PB'
    (by decide)

/-! ## C10: diffs are appended before commits and survive errors -/

theorem commitSiacoin_fail (s : Store) (scod : SiacoinOutputDiff) (dir : DiffDirection)
    (hc : s.failCountdown = some 0) :
    commitSiacoinOutputDiff s scod dir = none := by
  unfold commitSiacoinOutputDiff useWrite
  rw [hc]

theorem commitSiacoin_apply_succ (s : Store) (scod : SiacoinOutputDiff) (k : Nat)
    (hd : scod.direction = DiffDirection.apply) (hc : s.failCountdown = some (k + 1)) :
    commitSiacoinOutputDiff s scod DiffDirection.apply =
      some { s with
        failCountdown := some k,
        siacoinOutputs := s.siacoinOutputs ++ [(scod.id, scod.siacoinOutput)] } := by
  unfold commitSiacoinOutputDiff useWrite
  rw [hc]
  simp [hd]

/-- Draining with the oracle failing at write `k` (within the bucket):
the drain errs with the first `k + 1` Apply spendable diffs appended —
the `(k+1)`-st being the diff of the failed commit, appended before the
commit was attempted — and only `k` Revert delayed diffs, since the
failed entry's Revert record is never reached.  Nothing is rolled
back. -/
theorem foldVisit_matured_err (es : List (SiacoinOutputID × SiacoinOutput)) :
    ∀ (s : Store) (pb : ProcessedBlock) (k : Nat),
    s.failCountdown = some k → k < es.length →
    ∃ s', foldVisit (maturedVisit false) es (s, pb) =
      Outcome.err CError.storeError
        (s', { pb with
          siacoinOutputDiffs := pb.siacoinOutputDiffs ++
            (es.take (k + 1)).map (fun e =>
              { direction := DiffDirection.apply, id := e.1, siacoinOutput := e.2 }),
          delayedSiacoinOutputDiffs := pb.delayedSiacoinOutputDiffs ++
            (es.take k).map (fun e =>
              { direction := DiffDirection.revert, id := e.1, siacoinOutput := e.2,
                maturityHeight := pb.height }) }) := by
  induction es with
  | nil =>
    intro s pb k hc hk
    exact absurd hk (Nat.not_lt_zero k)
  | cons e rest ih =>
    intro s pb k hc hk
    cases k with
    | zero =>
      have hcommit := commitSiacoin_fail s
        { direction := DiffDirection.apply, id := e.1, siacoinOutput := e.2 }
        DiffDirection.apply hc
      refine ⟨s, ?_⟩
      simp only [foldVisit, maturedVisit, Bool.false_and, Bool.false_eq_true, if_false, hcommit]
      simp [List.take_succ_cons]
    | succ k =>
      have hcommit := commitSiacoin_apply_succ s
        { direction := DiffDirection.apply, id := e.1, siacoinOutput := e.2 } k rfl hc
      obtain ⟨s', hs'⟩ := ih
        ({ s with failCountdown := some k, siacoinOutputs := s.siacoinOutputs ++ [(e.1, e.2)] })
        ({ pb with siacoinOutputDiffs := pb.siacoinOutputDiffs ++ [{ direction := DiffDirection.apply, id := e.1, siacoinOutput := e.2 }], delayedSiacoinOutputDiffs := pb.delayedSiacoinOutputDiffs ++ [{ direction := DiffDirection.revert, id := e.1, siacoinOutput := e.2, maturityHeight := pb.height }] })
        k rfl (Nat.lt_of_succ_lt_succ hk)
      refine ⟨s', ?_⟩
      simp only [foldVisit, maturedVisit, Bool.false_and, Bool.false_eq_true, if_false, hcommit, commitDelayed_revert_apply]
      rw [hs']
      simp [List.take_succ_cons, List.append_assoc]

/-- Missed-proof settlement with the oracle failing at write `k`
(within the missed payouts): the loop errs with exactly the first
`k + 1` delayed diffs appended, the last being the failed commit's. -/
theorem missedProofLoop_take_err (fcid : FileContractID) (mpos : List SiacoinOutput) :
    ∀ (i : Nat) (s : Store) (pb : ProcessedBlock) (k : Nat),
    s.failCountdown = some k → k < mpos.length →
    ∃ s', missedProofLoop false fcid i mpos (s, pb) =
      Outcome.err CError.storeError
        (s', { pb with delayedSiacoinOutputDiffs :=
            pb.delayedSiacoinOutputDiffs ++
              (missedDiffsFrom fcid pb.height i mpos).take (k + 1) }) := by
  induction mpos with
  | nil =>
    intro i s pb k hc hk
    exact absurd hk (Nat.not_lt_zero k)
  | cons mpo rest ih =>
    intro i s pb k hc hk
    cases k with
    | zero =>
      have hcommit := commitDelayed_apply_fail s
        { direction := DiffDirection.apply,
          id := SiacoinOutputID.storageProofOutputID fcid true i,
          siacoinOutput := mpo, maturityHeight := pb.height + MaturityDelay } rfl hc
      refine ⟨s, ?_⟩
      simp only [missedProofLoop, Bool.false_and, Bool.false_eq_true, if_false, hcommit]
      simp [missedDiffsFrom]
    | succ k =>
      have hcommit := commitDelayed_apply_succ s
        { direction := DiffDirection.apply,
          id := SiacoinOutputID.storageProofOutputID fcid true i,
          siacoinOutput := mpo, maturityHeight := pb.height + MaturityDelay } k rfl hc
      obtain ⟨s', hs'⟩ := ih (i + 1)
        ({ s with failCountdown := some k, dscoBuckets := addToBucket (pb.height + MaturityDelay) (SiacoinOutputID.storageProofOutputID fcid true i, mpo) s.dscoBuckets })
        ({ pb with delayedSiacoinOutputDiffs := pb.delayedSiacoinOutputDiffs ++ [{ direction := DiffDirection.apply, id := SiacoinOutputID.storageProofOutputID fcid true i, siacoinOutput := mpo, maturityHeight := pb.height + MaturityDelay }] })
        k rfl (Nat.lt_of_succ_lt_succ hk)
      refine ⟨s', ?_⟩
      simp only [missedProofLoop, Bool.false_and, Bool.false_eq_true, if_false, hcommit]
      rw [hs']
      simp [missedDiffsFrom, List.take_succ_cons, List.append_assoc]

/-- C10: at each of the three commit sites, the diff of a mutation is
appended to the accumulator before the store commit is attempted, so
when the commit fails the stage errors with that diff — and all diffs
of the stage's earlier, successful mutations — still in the
accumulator; nothing is rolled back.  Stated as the exact error-path
characterisation of each stage with the oracle failing the `k`-th
write. -/
theorem c10_append_before_commit :
    (∀ (s : Store) (pb : ProcessedBlock) (k : Nat),
      s.failCountdown = some k → k < pb.block.minerPayouts.length →
      ∃ s', applyMinerPayouts (s, pb) = Outcome.err CError.storeError
        (s', { pb with delayedSiacoinOutputDiffs :=
            pb.delayedSiacoinOutputDiffs ++ (expectedMinerDiffs pb).take (k + 1) })) ∧
    (∀ (s : Store) (pb : ProcessedBlock) (es : List (SiacoinOutputID × SiacoinOutput)) (k : Nat),
      MaturityDelay < pb.height →
      assocFind pb.height s.dscoBuckets = some es →
      s.failCountdown = some k → k < es.length →
      ∃ s', applyMaturedSiacoinOutputs false (s, pb) = Outcome.err CError.storeError
        (s', { pb with
          siacoinOutputDiffs := pb.siacoinOutputDiffs ++
            (es.take (k + 1)).map (fun e =>
              { direction := DiffDirection.apply, id := e.1, siacoinOutput := e.2 }),
          delayedSiacoinOutputDiffs := pb.delayedSiacoinOutputDiffs ++
            (es.take k).map (fun e =>
              { direction := DiffDirection.revert, id := e.1, siacoinOutput := e.2,
                maturityHeight := pb.height }) })) ∧
    (∀ (s : Store) (pb : ProcessedBlock) (fcid : FileContractID) (fc : FileContract) (k : Nat),
      getFileContract s fcid = some fc →
      s.failCountdown = some k → k < fc.missedProofOutputs.length →
      ∃ s', applyTxMissedStorageProof false fcid (s, pb) = Outcome.err CError.storeError
        (s', { pb with delayedSiacoinOutputDiffs :=
            pb.delayedSiacoinOutputDiffs ++
              (missedDiffsFrom fcid pb.height 0 fc.missedProofOutputs).take (k + 1) })) := by
  refine ⟨?_, ?_, ?_⟩
  · intro s pb k hc hk
    exact minerPayoutsLoop_err pb.block.blockID pb.block.minerPayouts 0 s pb k hc hk
  · intro s pb es k hh hb hc hk
    obtain ⟨s', hs'⟩ := foldVisit_matured_err es s pb k hc hk
    refine ⟨s', ?_⟩
    unfold applyMaturedSiacoinOutputs
    rw [if_neg (by simpa using hh)]
    unfold forEachDSCO
    simp only [hb, hs']
  · intro s pb fcid fc k hfc hc hk
    obtain ⟨s', hs'⟩ := missedProofLoop_take_err fcid fc.missedProofOutputs 0 s pb k hc hk
    refine ⟨s', ?_⟩
    simp only [applyTxMissedStorageProof, hfc]
    rw [if_neg (by simp)]
    simp only [hs']

/-- Witness for C10: with the oracle failing the very first write, each
of the three stages errors with exactly the failed mutation's diff in
the accumulator, at concrete inputs. -/
theorem c10_append_before_commit_witness :
    (∃ s', applyMinerPayouts ({ emptyStore with failCountdown := some 0 }, pbAt block1 200) =
      Outcome.err CError.storeError
        (s', { pbAt block1 200 with delayedSiacoinOutputDiffs :=
            (pbAt block1 200).delayedSiacoinOutputDiffs ++
              (expectedMinerDiffs (pbAt block1 200)).take 1 })) ∧
    (∃ s', applyMaturedSiacoinOutputs false
        ({ mat1Store with failCountdown := some 0 }, pbAt block1 145) =
      Outcome.err CError.storeError
        (s', { pbAt block1 145 with
          siacoinOutputDiffs := (pbAt block1 145).siacoinOutputDiffs ++
            (mat1Entries.take 1).map (fun e =>
              { direction := DiffDirection.apply, id := e.1, siacoinOutput := e.2 }),
          delayedSiacoinOutputDiffs := (pbAt block1 145).delayedSiacoinOutputDiffs ++
            (mat1Entries.take 0).map (fun e =>
              { direction := DiffDirection.revert, id := e.1, siacoinOutput := e.2,
                maturityHeight := (pbAt block1 145).height }) })) ∧
    (∃ s', applyTxMissedStorageProof false 9
        ({ c9Store with failCountdown := some 0 }, pbAt block1 20) =
      Outcome.err CError.storeError
        (s', { pbAt block1 20 with delayedSiacoinOutputDiffs :=
            (pbAt block1 20).delayedSiacoinOutputDiffs ++
              (missedDiffsFrom 9 (pbAt block1 20).height 0
                c9Contract.missedProofOutputs).take 1 })) :=
  ⟨c10_append_before_commit.1 { emptyStore with failCountdown := some 0 }
      (pbAt block1 200) 0 rfl (by decide),
   c10_append_before_commit.2.1 { mat1Store with failCountdown := some 0 }
      (pbAt block1 145) mat1Entries 0 (by decide) (by decide) rfl (by decide),
   c10_append_before_commit.2.2 { c9Store with failCountdown := some 0 }
      (pbAt block1 20) 9 c9Contract 0 (by decide) rfl (by decide)⟩

end SiaMaint
